import Mathlib

/-!
Verification of `src/vs/workbench/contrib/terminal/browser/links/terminalLinkOpeners.ts`.

The file embeds the three link openers of that module — `TerminalLocalFileLinkOpener`,
`TerminalLocalFolderInWorkspaceLinkOpener` and `TerminalSearchLinkOpener` — as pure Lean
functions.  Strings are handled through their underlying `List Char`; the asynchronous
capability calls (file stat, bounded file search, editor open) become injected oracles
returning `Except Unit _`, an error value standing for a thrown JS exception, and the
try/catch of `TerminalSearchLinkOpener.open` becomes a `match` on that `Except`.

Two pieces of this repository are referenced by the source file but are not present under
`src/`: `vs/base/common/path` (Node-style `normalize`/`isAbsolute`) and the regular
expression tables of `terminalLocalLinkDetector.ts`.  Definitions for those parts are
modelled from the spec and carry a doc comment beginning `Modelled from the spec:`.
-/

/-- Host/terminal operating system flavour.  The source distinguishes exactly
Windows from everything else (`isWindows`, `os === OperatingSystem.Windows`);
Linux and macOS behave identically here and collapse into `posix`. -/
inductive HostOS
  | windows
  | posix
deriving DecidableEq

/-- The `pathSeparator` of `TerminalSearchLinkOpener.open` line 120:
`isWindows ? '\\' : '/'`. -/
def sepChar : HostOS → Char
  | .windows => '\\'
  | .posix => '/'

/-- True for both separator characters, as the regex character class `[\\/]`. -/
def isSepEither (c : Char) : Bool := c = '\\' || c = '/'

/-- Separator recognition for path canonicalization: Windows accepts both
slashes, posix only the forward slash. -/
def isSepOf : HostOS → Char → Bool
  | .windows, c => isSepEither c
  | .posix, c => c = '/'

/-- Does `l` begin with `p`?  (the source compares `text.substring(0, n)` with an
`n`-character string, which is exactly this test). -/
def startsWithL (p l : List Char) : Bool := l.take p.length = p

/-- Splits a character list at separator characters, keeping empty segments,
as JS `String.prototype.split` with a one-character separator. -/
def splitSeps (isSep : Char → Bool) (l : List Char) : List (List Char) :=
  l.foldr
    (fun c acc =>
      if isSep c then [] :: acc
      else
        match acc with
        | s :: rest => (c :: s) :: rest
        | [] => [[c]])
    [[]]

/-- Joins segments with the separator, as JS `Array.prototype.join`. -/
def joinSeps (sep : Char) : List (List Char) → List Char
  | [] => []
  | [s] => s
  | s :: rest => s ++ sep :: joinSeps sep rest

/-- Modelled from the spec: the segment resolution inside Node-style
`path.normalize` (`vs/base/common/path`, absent from `src/`).  Empty and `.`
segments are dropped; `..` pops the previous real segment, and piles up at the
front only for relative paths (`allowAboveRoot`). -/
def normSegs (allowAboveRoot : Bool) : List (List Char) → List (List Char) → List (List Char)
  | acc, [] => acc.reverse
  | acc, s :: rest =>
    if s = [] || s = ['.'] then normSegs allowAboveRoot acc rest
    else if s = ['.', '.'] then
      match acc with
      | t :: acc2 =>
        if t = ['.', '.'] then normSegs allowAboveRoot (s :: t :: acc2) rest
        else normSegs allowAboveRoot acc2 rest
      | [] =>
        if allowAboveRoot then normSegs allowAboveRoot [['.', '.']] rest
        else normSegs allowAboveRoot [] rest
    else normSegs allowAboveRoot (s :: acc) rest

/-- Modelled from the spec: `normalize` of `vs/base/common/path` (absent from
`src/`), the Node `path.normalize` — pure string canonicalization of `.` and
`..` segments with OS-appropriate separators, preserving a leading root and a
trailing separator, returning `.` for an empty result.  (Windows drive-letter
device roots are not modelled; no claim exercises them.) -/
def nodeNormalize (os : HostOS) (l : List Char) : List Char :=
  if l = [] then ['.']
  else
    let isSep := isSepOf os
    let abs := isSep (l.headD ' ')
    let trail := isSep (l.getLastD ' ')
    let sep := sepChar os
    let body := joinSeps sep (normSegs (!abs) [] (splitSeps isSep l))
    if body = [] then
      if abs then [sep] else if trail then ['.', sep] else ['.']
    else
      (if abs then sep :: body else body) ++ (if trail then [sep] else [])

/-- The characters of `file:///`. -/
def schemeSlash3 : List Char := ['f', 'i', 'l', 'e', ':', '/', '/', '/']

/-- The characters of `file://`. -/
def schemeSlash2 : List Char := ['f', 'i', 'l', 'e', ':', '/', '/']

/-- The scheme strip of line 122: `text.replace(/^file:\/\/\/?/, '')` — the
optional third slash is consumed greedily. -/
def stripScheme (l : List Char) : List Char :=
  if startsWithL schemeSlash3 l then l.drop 8
  else if startsWithL schemeSlash2 l then l.drop 7
  else l

/-- One unit of the anchored replace `/^(\.+[\\/])+/`: a run of dots followed by
a separator is consumed, repeatedly, from the front.  Fuel-driven so that every
step consumes at least two characters of the remaining list. -/
def stripDotsAux : Nat → List Char → List Char
  | 0, l => l
  | fuel + 1, l =>
    let dots := l.takeWhile (fun c => c = '.')
    if dots.isEmpty then l
    else
      match l.drop dots.length with
      | c :: rest => if isSepEither c then stripDotsAux fuel rest else l
      | [] => l

/-- The leading-dot-segment strip of line 123:
`.replace(/^(\.+[\\/])+/, '')`. -/
def stripLeadDots (l : List Char) : List Char := stripDotsAux l.length l

/-- The Ruby stack-trace marker strip of line 126: `text.replace(/:in$/, '')`. -/
def stripInSuffix (l : List Char) : List Char :=
  match l.reverse with
  | 'n' :: 'i' :: ':' :: r => r.reverse
  | _ => l

/-- One workspace folder check of the forEach body, lines 130-133: if the
running string starts with `folder.name + pathSeparator`, drop that many
characters. -/
def stripFolderStep (sep : Char) (t : List Char) (name : List Char) : List Char :=
  if t.take (name.length + 1) = name ++ [sep] then t.drop (name.length + 1) else t

/-- The folder scan of lines 129-134.  The JS `return` inside the `forEach`
callback only ends that one callback invocation, so the iteration continues
with the remaining folders against the already-stripped string: a `foldl`. -/
def stripFolderNames (sep : Char) (folders : List (List Char)) (t : List Char) : List Char :=
  folders.foldl (stripFolderStep sep) t

/-- The normalization pipeline of `TerminalSearchLinkOpener.open`, lines
120-134: scheme strip, Node path normalize, leading-dot strip, `:in` strip,
then the workspace-folder-name scan.  Workspace folders enter only through
their names here, so they are passed as a list of names. -/
def normalizeText (os : HostOS) (folders : List String) (s : String) : String :=
  String.mk (stripFolderNames (sepChar os) (folders.map String.data)
    (stripInSuffix (stripLeadDots (nodeNormalize os (stripScheme s.data)))))

example : normalizeText .posix [] "./lib/foo.rb:in" = "lib/foo.rb" := by decide
example : normalizeText .posix ["a", "b"] "a/b/c" = "c" := by decide
example : normalizeText .posix [] "a:in:in" = "a:in" := by decide
example : normalizeText .posix ["proj"] "proj/src/a.ts" = "src/a.ts" := by decide
example : normalizeText .posix [] "file:///x/y.ts" = "x/y.ts" := by decide

deriving instance DecidableEq for Except

/-- The value of JS `parseInt(s, 10)` on an all-digit capture. -/
def digitsToNat (l : List Char) : Nat := l.foldl (fun n c => n * 10 + (c.toNat - 48)) 0

/-- Some exactly when the list is a nonempty run of decimal digits, carrying
the parsed value. -/
def parseDigits (l : List Char) : Option Nat :=
  if !l.isEmpty && l.all Char.isDigit then some (digitsToNat l) else none

/-- Match attempt of the selection regex `/:(\d+)?(:(\d+))?$/` at the position
just after a literal `:` — returns the two captures when the remainder of the
string fits the pattern up to the end.  Digits are taken greedily; retrying a
shorter first capture can never succeed, so the regex backtracking needs no
further modelling. -/
def selAttempt (rest : List Char) : Option (Option (List Char) × Option (List Char)) :=
  let d1 := rest.takeWhile Char.isDigit
  match rest.drop d1.length with
  | [] => some (if d1.isEmpty then none else some d1, none)
  | ':' :: r2 =>
    let d2 := r2.takeWhile Char.isDigit
    if !d2.isEmpty && (r2.drop d2.length).isEmpty then
      some (if d1.isEmpty then none else some d1, some d2)
    else none
  | _ => none

/-- The leftmost match of `matchLink.match(/:(\d+)?(:(\d+))?$/)`, line 144:
scan left to right for a `:` from which the pattern matches through the end. -/
def selMatch : List Char → Option (Option (List Char) × Option (List Char))
  | [] => none
  | c :: rest =>
    if c = ':' then
      match selAttempt rest with
      | some r => some r
      | none => selMatch rest
    else selMatch rest

/-- The editor selection computed at lines 144-156: present only when the
`startLineNumber` capture is defined; `startColumn` defaults to `0` when the
column capture is absent. -/
def selectionOf (matchLink : String) : Option (Nat × Nat) :=
  match selMatch matchLink.data with
  | some (some d1, colCap) =>
    some (digitsToNat d1,
      match colCap with
      | some d2 => digitsToNat d2
      | none => 0)
  | _ => none

/-- Match test of the sanitize regex `/:\d+(:\d+)?$/` at the position just
after a `:` — digits, optionally one further `:`-digits group, reaching the
end of the string. -/
def sanAttempt (rest : List Char) : Bool :=
  let d1 := rest.takeWhile Char.isDigit
  !d1.isEmpty &&
    (match rest.drop d1.length with
     | [] => true
     | ':' :: r2 =>
       let d2 := r2.takeWhile Char.isDigit
       !d2.isEmpty && (r2.drop d2.length).isEmpty
     | _ => false)

/-- The sanitize replace of line 139: `matchLink.replace(/:\d+(:\d+)?$/, '')` —
everything from the leftmost `:` at which the pattern reaches the end is cut. -/
def stripTrailingLineCol : List Char → List Char
  | [] => []
  | c :: rest =>
    if c = ':' && sanAttempt rest then []
    else c :: stripTrailingLineCol rest

/-- String wrapper for `stripTrailingLineCol`. -/
def stripTrailingLineColS (s : String) : String := String.mk (stripTrailingLineCol s.data)

example : stripTrailingLineColS "a/b:12:7" = "a/b" := by decide
example : stripTrailingLineColS "a:1:2:3" = "a:1" := by decide
example : stripTrailingLineColS "a/b" = "a/b" := by decide
example : selectionOf "a/b:12:7" = some (12, 7) := by decide
example : selectionOf "a/b:12" = some (12, 0) := by decide
example : selectionOf "a/b" = none := by decide
example : selectionOf "a::5" = none := by decide

/-- `TerminalSearchLinkOpener._updateLinkWithRelativeCwd`, lines 172-193.
`getCwd` is the capability's `getCwdForLine`; `y` is the link's buffer row.
`commonDirs` counts every aligned index at which the reversed cwd segments and
the link segments coincide, exactly as the source's while loop does. -/
def updateLinkWithRelativeCwd (getCwd : Nat → Option String) (y : Nat)
    (text : String) (sep : Char) : Option String :=
  match getCwd y with
  | none => none
  | some cwd =>
    if !text.data.contains sep then
      some (cwd ++ String.mk [sep] ++ text)
    else
      let cwdPath := (splitSeps (fun c => c = sep) cwd.data).reverse
      let linkPath := splitSeps (fun c => c = sep) text.data
      let commonDirs :=
        (List.range cwdPath.length).countP (fun i => decide (cwdPath.get? i = linkPath.get? i))
      some (cwd ++ String.mk [sep] ++ String.mk (joinSeps sep (linkPath.drop commonDirs)))

/-- Modelled from the spec: `isAbsolute` of `vs/base/common/path` (absent from
`src/`), the Node `path.isAbsolute` — posix: a leading slash; Windows: a
leading separator, or a drive letter followed by `:` and a separator. -/
def isAbsolutePath (os : HostOS) (l : List Char) : Bool :=
  match os with
  | .posix =>
    match l with
    | c :: _ => c = '/'
    | [] => false
  | .windows =>
    match l with
    | [] => false
    | c :: rest =>
      isSepEither c ||
        (c.isAlpha &&
          (match rest with
           | ':' :: c2 :: _ => isSepEither c2
           | _ => false))

/-- A resolved resource: `URI.from({ scheme, path })` restricted to the two
fields the source constructs. -/
structure Resource where
  scheme : String
  path : String
deriving DecidableEq

/-- `Schemas.vscodeRemote` / `Schemas.file` of `vs/base/common/network` (absent
from `src/`; the two scheme strings as the source selects them at line 198). -/
def schemeFor (remoteAuthority : Option String) : String :=
  match remoteAuthority with
  | some _ => "vscode-remote"
  | none => "file"

/-- `TerminalSearchLinkOpener._getExactMatch`, lines 195-218.  `stat` is
`IFileService.resolve` reduced to its `isFile` bit — a missing file makes
`resolve` throw, which is the error case; `search` is
`ISearchService.fileSearch` on the file query built from the workspace folders
with the given `filePattern` and `maxResults`.  `Except.error` models a thrown
exception propagating to the caller. -/
def getExactMatch (stat : Resource → Except Unit Bool)
    (search : String → Nat → Except Unit (List Resource))
    (remoteAuthority : Option String) (os : HostOS) (sanitizedLink : String) :
    Except Unit (Option Resource) :=
  let step1 : Except Unit (Option Resource) :=
    if isAbsolutePath os sanitizedLink.data then
      let resource : Resource := ⟨schemeFor remoteAuthority, sanitizedLink⟩
      match stat resource with
      | .error e => .error e
      | .ok isFile => .ok (if isFile then some resource else none)
    else .ok none
  match step1 with
  | .error e => .error e
  | .ok (some r) => .ok (some r)
  | .ok none =>
    match search sanitizedLink 2 with
    | .error e => .error e
    | .ok results => .ok (if results.length = 1 then results.head? else none)

/-- The capability set injected into `TerminalSearchLinkOpener`.
`commandDetection` is `some` exactly when
`_capabilities.has(TerminalCapability.CommandDetection)`, and its value is the
capability's `getCwdForLine`. -/
structure SearchOpenerCaps where
  stat : Resource → Except Unit Bool
  search : String → Nat → Except Unit (List Resource)
  openEditor : Resource → Option (Nat × Nat) → Except Unit Unit
  remoteAuthority : Option String
  commandDetection : Option (Nat → Option String)

/-- Observable outcome of `TerminalSearchLinkOpener.open`: either the editor
was opened on a resource with an optional `(startLineNumber, startColumn)`
selection, or the quick-access search UI was shown with a query string. -/
inductive OpenOutcome
  | opened (resource : Resource) (selection : Option (Nat × Nat))
  | quickAccess (searchHint : String)
deriving DecidableEq

/-- The `matchLink` of lines 135-138: the normalized text, rewritten against
the cwd hint when the CommandDetection capability is present (`|| text` keeps
the normalized text when the rewrite returns undefined). -/
def matchLinkOf (os : HostOS) (folders : List String) (caps : SearchOpenerCaps)
    (linkText : String) (y : Nat) : String :=
  let text := normalizeText os folders linkText
  match caps.commandDetection with
  | some getCwd => (updateLinkWithRelativeCwd getCwd y text (sepChar os)).getD text
  | none => text

/-- `TerminalSearchLinkOpener.open`, lines 119-166.  The try/catch around the
exact-match step and the editor open becomes the match on `Except`; every
non-opened path shows quick access with the normalized `text`. -/
def openSearchLink (os : HostOS) (folders : List String) (caps : SearchOpenerCaps)
    (linkText : String) (y : Nat) : OpenOutcome :=
  let text := normalizeText os folders linkText
  let matchLink := matchLinkOf os folders caps linkText y
  let sanitizedLink := stripTrailingLineColS matchLink
  match getExactMatch caps.stat caps.search caps.remoteAuthority os sanitizedLink with
  | .error _ => .quickAccess text
  | .ok none => .quickAccess text
  | .ok (some r) =>
    let sel := selectionOf matchLink
    match caps.openEditor r sel with
    | .ok _ => .opened r sel
    | .error _ => .quickAccess text

example :
    openSearchLink .posix []
      { stat := fun _ => .error (), search := fun _ _ => .ok [],
        openEditor := fun _ _ => .ok (), remoteAuthority := none,
        commandDetection := none } "./lib/foo.rb:in" 0 = .quickAccess "lib/foo.rb" := by
  decide

example :
    openSearchLink .posix []
      { stat := fun _ => .ok true, search := fun _ _ => .ok [],
        openEditor := fun _ _ => .ok (), remoteAuthority := none,
        commandDetection := none } "/x/app.ts:42:7" 0 =
      .opened ⟨"file", "/x/app.ts"⟩ (some (42, 7)) := by
  decide

/-- Modelled from the spec: `lineAndColumnClauseGroupCount` of
`terminalLocalLinkDetector` (absent from `src/`) — the number of capture
groups each line/column grammar alternative contributes. -/
def lineAndColumnClauseGroupCount : Nat := 6

/-- Modelled from the spec: the number of alternatives of the line/column
grammar table (`lineAndColumnClause.length` in the source loop). -/
def lineAndColumnClauseCount : Nat := 6

/-- Modelled from the spec: `winLineAndColumnMatchIndex` /
`unixLineAndColumnMatchIndex` of `terminalLocalLinkDetector` (absent from
`src/`) — the capture offset of the first alternative's line group. -/
def lineAndColumnMatchIndex : HostOS → Nat
  | .windows => 12
  | .posix => 11

/-- Takes a trailing digit run followed by `:` off a reversed character list:
for `r = (P ++ ":" ++ d).reverse` with `d` nonempty digits, this gives
`(d.reverse, P.data.reverse)`. -/
def splitTrailingNum (r : List Char) : Option (List Char × List Char) :=
  let d := r.takeWhile Char.isDigit
  if d.isEmpty then none
  else
    match r.drop d.length with
    | ':' :: r2 => some (d, r2)
    | _ => none

/-- Decomposes a fragment into a path part and up to two trailing colon-digit
groups: `P` to `(P, none)`; `P:L` to `(P, some (L, none))`; `P:L:C` to
`(P, some (L, some C))`. -/
def pathAndSuffix (l : List Char) : List Char × Option (List Char × Option (List Char)) :=
  match splitTrailingNum l.reverse with
  | none => (l, none)
  | some (dLast, r1) =>
    match splitTrailingNum r1 with
    | none => (r1.reverse, some (dLast.reverse, none))
    | some (dBefore, r2) => (r2.reverse, some (dBefore.reverse, some dLast.reverse))

/-- Modelled from the spec: the combined local-link and line/column regex
match of `terminalLocalLinkDetector` (absent from `src/`), restricted to the
trailing `:line` / `:line:col` grammar the claims exercise.  A fragment with a
nonempty path yields a capture array in which only the final alternative's
line capture — and, two slots later, its column capture — can be set, matching
the spec's `baseOffset + groupCountPerAlternative * alternativeIndex` layout;
a fragment with an empty path yields no match. -/
def localLinkMatch (os : HostOS) (link : String) : Option (List (Option String)) :=
  let ps := pathAndSuffix link.data
  if ps.1.isEmpty then none
  else
    let lineIdx := lineAndColumnMatchIndex os +
      lineAndColumnClauseGroupCount * (lineAndColumnClauseCount - 1)
    match ps.2 with
    | none => some (List.replicate (lineIdx + 3) none)
    | some (dl, colCap) =>
      some (List.replicate lineIdx none ++
        [some (String.mk dl), none, colCap.map String.mk])

/-- JS indexing into the regex match array: out of range is `undefined`. -/
def capAt (m : List (Option String)) (i : Nat) : Option String :=
  match m.get? i with
  | some o => o
  | none => none

/-- JS truthiness of a capture: defined and nonempty. -/
def truthyCapture : Option String → Bool
  | none => false
  | some s => !s.data.isEmpty

/-- `LineColumnInfo` of `terminalLinkManager`: 1-based line and column, both
defaulting to 1. -/
structure LineColumnInfo where
  lineNumber : Nat
  columnNumber : Nat
deriving DecidableEq

/-- `TerminalLocalFileLinkOpener.extractLineColumnInfo`, lines 60-87.  The for
loop breaks at the first alternative with a truthy line capture, which is the
`find?` over the alternative indices; the column capture two slots later is
parsed when truthy, otherwise the default column 1 stays. -/
def extractLineColumnInfo (os : HostOS) (link : String) : LineColumnInfo :=
  match localLinkMatch os link with
  | none => ⟨1, 1⟩
  | some caps =>
    let base := lineAndColumnMatchIndex os
    match (List.range lineAndColumnClauseCount).find?
        (fun i => truthyCapture (capAt caps (base + lineAndColumnClauseGroupCount * i))) with
    | none => ⟨1, 1⟩
    | some i =>
      let idx := base + lineAndColumnClauseGroupCount * i
      let colCap := capAt caps (idx + 2)
      { lineNumber := digitsToNat ((capAt caps idx).getD "").data,
        columnNumber :=
          if truthyCapture colCap then digitsToNat ((colCap.getD "").data) else 1 }

example : extractLineColumnInfo .posix "src/app.ts:42:7" = ⟨42, 7⟩ := by decide
example : extractLineColumnInfo .posix "src/app.ts:42" = ⟨42, 1⟩ := by decide
example : extractLineColumnInfo .posix "src/app.ts" = ⟨1, 1⟩ := by decide
example : extractLineColumnInfo .windows "C:\\a\\b.ts:9:3" = ⟨9, 3⟩ := by decide

/-! ## Claim C6: bare filename with a cwd hint -/

/-- C6: for every candidate string containing no path-separator character,
when a cwd hint is present the rewrite returns exactly
`hint + separator + candidate` (lines 177-178). -/
theorem C6_rewrite_bare_filename (getCwd : Nat → Option String) (y : Nat)
    (text : String) (sep : Char) (cwd : String)
    (hcwd : getCwd y = some cwd) (hsep : text.data.contains sep = false) :
    updateLinkWithRelativeCwd getCwd y text sep =
      some (cwd ++ String.mk [sep] ++ text) := by
  unfold updateLinkWithRelativeCwd
  rw [hcwd, hsep]
  rfl

/-- Concrete instance of C6: a bare `app.ts` under cwd `/home/u`. -/
theorem C6_rewrite_bare_filename_witness :
    (fun _ : Nat => some "/home/u") 0 = some "/home/u" ∧
    "app.ts".data.contains '/' = false ∧
    updateLinkWithRelativeCwd (fun _ => some "/home/u") 0 "app.ts" '/' =
      some ("/home/u" ++ String.mk ['/'] ++ "app.ts") :=
  ⟨rfl, by decide,
    C6_rewrite_bare_filename (fun _ => some "/home/u") 0 "app.ts" '/' "/home/u" rfl
      (by decide)⟩

/-! ## Claim C7: absolute path that stats as a file -/

/-- C7: a sanitized absolute path whose stat reports an existing file resolves
to exactly the resource built from the scheme picked by the remote authority
and that path.  The search oracle is universally quantified and absent from
the conclusion: the search capability is never consulted on this branch. -/
theorem C7_absolute_stat_file (stat : Resource → Except Unit Bool)
    (search : String → Nat → Except Unit (List Resource))
    (ra : Option String) (os : HostOS) (s : String)
    (habs : isAbsolutePath os s.data = true)
    (hstat : stat ⟨schemeFor ra, s⟩ = .ok true) :
    getExactMatch stat search ra os s = .ok (some ⟨schemeFor ra, s⟩) := by
  unfold getExactMatch
  simp [habs, hstat]

/-- Concrete instance of C7, with a search oracle that would throw if it were
ever consulted. -/
theorem C7_absolute_stat_file_witness :
    isAbsolutePath .posix "/x/app.ts".data = true ∧
    (fun _ : Resource => (.ok true : Except Unit Bool)) ⟨schemeFor none, "/x/app.ts"⟩ = .ok true ∧
    getExactMatch (fun _ => .ok true) (fun _ _ => .error ()) none .posix "/x/app.ts" =
      .ok (some ⟨schemeFor none, "/x/app.ts"⟩) :=
  ⟨by decide, rfl,
    C7_absolute_stat_file (fun _ => .ok true) (fun _ _ => .error ()) none .posix "/x/app.ts"
      (by decide) rfl⟩

/-! ## Claim C4: capability errors are caught and folded into the fallback -/

/-- C4: when the exact-match step ends in a thrown error — which, by the shape
of `getExactMatch`, arises exactly from the stat or the search capability —
`open` catches it and shows quick access with the normalized text.  Since
`openSearchLink` is a total function into `OpenOutcome`, no error ever reaches
the caller. -/
theorem C4_capability_error_caught (os : HostOS) (folders : List String)
    (caps : SearchOpenerCaps) (linkText : String) (y : Nat)
    (herr : getExactMatch caps.stat caps.search caps.remoteAuthority os
      (stripTrailingLineColS (matchLinkOf os folders caps linkText y)) = .error ()) :
    openSearchLink os folders caps linkText y =
      .quickAccess (normalizeText os folders linkText) := by
  simp only [openSearchLink, herr]

/-- Concrete instance of C4: the stat capability throws on an absolute link. -/
theorem C4_capability_error_caught_witness :
    openSearchLink .posix []
      { stat := fun _ => .error (), search := fun _ _ => .ok [],
        openEditor := fun _ _ => .ok (), remoteAuthority := none,
        commandDetection := none } "/a/b.ts" 0 = .quickAccess "/a/b.ts" :=
  (C4_capability_error_caught .posix []
      { stat := fun _ => .error (), search := fun _ _ => .ok [],
        openEditor := fun _ _ => .ok (), remoteAuthority := none,
        commandDetection := none } "/a/b.ts" 0 (by decide)).trans (by decide)

/-! ## Claim C10: an editor-open failure also falls back to quick access -/

/-- C10: when an exact match was found but opening the editor throws, the
catch in `open` shows quick access with the normalized text instead of
propagating the error. -/
theorem C10_editor_error_falls_back (os : HostOS) (folders : List String)
    (caps : SearchOpenerCaps) (linkText : String) (y : Nat) (r : Resource)
    (hexact : getExactMatch caps.stat caps.search caps.remoteAuthority os
      (stripTrailingLineColS (matchLinkOf os folders caps linkText y)) = .ok (some r))
    (hed : caps.openEditor r (selectionOf (matchLinkOf os folders caps linkText y)) =
      .error ()) :
    openSearchLink os folders caps linkText y =
      .quickAccess (normalizeText os folders linkText) := by
  simp only [openSearchLink, hexact, hed]

/-- Concrete instance of C10: the file exists, the editor throws. -/
theorem C10_editor_error_falls_back_witness :
    openSearchLink .posix []
      { stat := fun _ => .ok true, search := fun _ _ => .ok [],
        openEditor := fun _ _ => .error (), remoteAuthority := none,
        commandDetection := none } "/a/b.ts:3" 0 = .quickAccess "/a/b.ts:3" :=
  (C10_editor_error_falls_back .posix []
      { stat := fun _ => .ok true, search := fun _ _ => .ok [],
        openEditor := fun _ _ => .error (), remoteAuthority := none,
        commandDetection := none } "/a/b.ts:3" 0 ⟨"file", "/a/b.ts"⟩
      (by decide) (by decide)).trans (by decide)

/-! ## Claim C2: what text the quick-access fallback receives -/

/-- C2 counterexample: for `./lib/foo.rb:in` on posix with no cwd hint and no
matching file anywhere, the outcome is the quick-access fallback, but its
search hint is the stripped `lib/foo.rb`, not the original input text. -/
theorem C2_counterexample :
    openSearchLink .posix []
      { stat := fun _ => .ok false, search := fun _ _ => .ok [],
        openEditor := fun _ _ => .ok (), remoteAuthority := none,
        commandDetection := none } "./lib/foo.rb:in" 0 = .quickAccess "lib/foo.rb" ∧
    "lib/foo.rb" ≠ "./lib/foo.rb:in" :=
  ⟨by decide, by decide⟩

/-- C2 amended: whenever `open` falls back to quick access, the hint it shows
is exactly the normalized text (after scheme, leading-dot, `:in` and
folder-name stripping, before the cwd rewrite) — never the original input. -/
theorem C2_quick_access_hint_is_normalized (os : HostOS) (folders : List String)
    (caps : SearchOpenerCaps) (linkText : String) (y : Nat) (hint : String)
    (h : openSearchLink os folders caps linkText y = .quickAccess hint) :
    hint = normalizeText os folders linkText := by
  simp only [openSearchLink] at h
  cases hg : getExactMatch caps.stat caps.search caps.remoteAuthority os
      (stripTrailingLineColS (matchLinkOf os folders caps linkText y)) with
  | error e =>
    rw [hg] at h
    cases h
    rfl
  | ok v =>
    rw [hg] at h
    match v with
    | none =>
      cases h
      rfl
    | some r =>
      have h2 : (match caps.openEditor r (selectionOf (matchLinkOf os folders caps linkText y)) with
          | Except.ok _ => OpenOutcome.opened r (selectionOf (matchLinkOf os folders caps linkText y))
          | Except.error _ => OpenOutcome.quickAccess (normalizeText os folders linkText)) =
          OpenOutcome.quickAccess hint := h
      cases he : caps.openEditor r (selectionOf (matchLinkOf os folders caps linkText y)) with
      | error e2 =>
        rw [he] at h2
        cases h2
        rfl
      | ok u =>
        rw [he] at h2
        cases h2

/-- Concrete instance of the amended C2, on the spec's own end-to-end example
input. -/
theorem C2_quick_access_hint_is_normalized_witness :
    openSearchLink .posix []
      { stat := fun _ => .ok false, search := fun _ _ => .ok [],
        openEditor := fun _ _ => .ok (), remoteAuthority := none,
        commandDetection := none } "./lib/foo.rb:in" 0 = .quickAccess "lib/foo.rb" ∧
    "lib/foo.rb" = normalizeText .posix [] "./lib/foo.rb:in" :=
  ⟨by decide,
    C2_quick_access_hint_is_normalized .posix []
      { stat := fun _ => .ok false, search := fun _ _ => .ok [],
        openEditor := fun _ _ => .ok (), remoteAuthority := none,
        commandDetection := none } "./lib/foo.rb:in" 0 "lib/foo.rb" (by decide)⟩

/-! ## Claim C1: how many folder-name strips per normalize call -/

/-- Follows the claim's words (C1): scan base directories in order and stop at
the first whose name + separator is stripped — at most one strip overall. -/
def stripFolderNamesFirstWins (sep : Char) : List (List Char) → List Char → List Char
  | [], t => t
  | name :: rest, t =>
    if t.take (name.length + 1) = name ++ [sep] then t.drop (name.length + 1)
    else stripFolderNamesFirstWins sep rest t

/-- Recursive restatement of the source's forEach: every folder is visited in
order against the running string, each possibly stripping once. -/
def stripFolderNamesScanAll (sep : Char) : List (List Char) → List Char → List Char
  | [], t => t
  | name :: rest, t => stripFolderNamesScanAll sep rest (stripFolderStep sep t name)

/-- C1 counterexample: with folders named `a` and `b` (in that order) and input
`a/b/c`, the code strips both folder names, yielding `c`, while the claimed
first-match-wins scan would stop after `a` and yield `b/c`. -/
theorem C1_counterexample :
    normalizeText .posix ["a", "b"] "a/b/c" = "c" ∧
    String.mk (stripFolderNamesFirstWins '/' ["a".data, "b".data]
      (stripInSuffix (stripLeadDots (nodeNormalize .posix (stripScheme "a/b/c".data))))) =
      "b/c" ∧
    ("c" : String) ≠ "b/c" :=
  ⟨by decide, by decide, by decide⟩

/-- C1 amended: the folder scan visits every base directory in order; after a
strip it continues with the remaining folders against the already-stripped
string (at most one strip per folder, possibly several per call).  Stated as:
the fold over a split folder list factors through the running string, and the
fold equals the folder-by-folder recursive scan. -/
theorem C1_folder_scan_continues (sep : Char) (fs1 fs2 : List (List Char)) (t : List Char) :
    stripFolderNames sep (fs1 ++ fs2) t =
      stripFolderNames sep fs2 (stripFolderNames sep fs1 t) ∧
    stripFolderNames sep fs1 t = stripFolderNamesScanAll sep fs1 t := by
  constructor
  · exact List.foldl_append _ _ fs1 fs2
  · induction fs1 generalizing t with
    | nil => rfl
    | cons a l ih =>
      simp only [stripFolderNames, List.foldl_cons, stripFolderNamesScanAll] at *
      exact ih _

/-! ## Claim C3: when the bounded search is issued -/

/-- Follows the claim's words (C3): whenever the absolute-path stat step
yields no exact file — the path is not absolute, the stat reports a non-file,
or the stat fails — the bounded search (maxResults 2) runs; exactly one result
is the match, and zero results, several results, or a failing search give
none. -/
def getExactMatchClaimed (stat : Resource → Except Unit Bool)
    (search : String → Nat → Except Unit (List Resource))
    (remoteAuthority : Option String) (os : HostOS) (sanitizedLink : String) :
    Option Resource :=
  let statHit : Option Resource :=
    if isAbsolutePath os sanitizedLink.data then
      let resource : Resource := ⟨schemeFor remoteAuthority, sanitizedLink⟩
      match stat resource with
      | .ok true => some resource
      | _ => none
    else none
  match statHit with
  | some r => some r
  | none =>
    match search sanitizedLink 2 with
    | .ok results => if results.length = 1 then results.head? else none
    | .error _ => none

/-- C3 counterexample: on absolute path `/a/b` whose stat throws, the code's
match step ends in the thrown error — the search result (a single hit, which
the claim would promote to an exact match) is never consulted — and the
end-to-end outcome is the quick-access fallback rather than an open. -/
theorem C3_counterexample :
    getExactMatch (fun _ => .error ()) (fun _ _ => .ok [⟨"file", "/r/x.ts"⟩])
      none .posix "/a/b" = .error () ∧
    getExactMatchClaimed (fun _ => .error ()) (fun _ _ => .ok [⟨"file", "/r/x.ts"⟩])
      none .posix "/a/b" = some ⟨"file", "/r/x.ts"⟩ ∧
    openSearchLink .posix []
      { stat := fun _ => .error (), search := fun _ _ => .ok [⟨"file", "/r/x.ts"⟩],
        openEditor := fun _ _ => .ok (), remoteAuthority := none,
        commandDetection := none } "/a/b" 0 = .quickAccess "/a/b" :=
  ⟨by decide, by decide, by decide⟩

/-- C3 amended: the bounded search — pattern the sanitized path, maxResults
2 — runs when the path is not absolute or when the stat succeeds reporting a
non-file; exactly one result is the exact match and zero or several give
none.  A stat error on an absolute path instead aborts the step before any
search (the caller's catch then folds it into the fallback outcome). -/
theorem C3_search_step_conditions (stat : Resource → Except Unit Bool)
    (search : String → Nat → Except Unit (List Resource))
    (ra : Option String) (os : HostOS) (s : String) :
    (isAbsolutePath os s.data = false →
      getExactMatch stat search ra os s =
        (match search s 2 with
         | .error e => .error e
         | .ok results => .ok (if results.length = 1 then results.head? else none))) ∧
    (stat ⟨schemeFor ra, s⟩ = .ok false →
      getExactMatch stat search ra os s =
        (match search s 2 with
         | .error e => .error e
         | .ok results => .ok (if results.length = 1 then results.head? else none))) ∧
    (isAbsolutePath os s.data = true → stat ⟨schemeFor ra, s⟩ = .error () →
      getExactMatch stat search ra os s = .error ()) := by
  refine ⟨fun habs => ?_, fun hstat => ?_, fun habs herr => ?_⟩
  · dsimp only [getExactMatch]
    rw [habs]
    exact rfl
  · dsimp only [getExactMatch]
    cases habs : isAbsolutePath os s.data with
    | false => exact rfl
    | true =>
      rw [hstat]
      exact rfl
  · dsimp only [getExactMatch]
    rw [habs, herr]
    exact rfl

/-- Concrete instances of the amended C3: a relative path resolved through a
one-hit search, and a stat error that short-circuits with no search. -/
theorem C3_search_step_conditions_witness :
    isAbsolutePath .posix "a/b".data = false ∧
    getExactMatch (fun _ => .ok true) (fun _ _ => .ok [⟨"file", "/r/a/b"⟩])
      none .posix "a/b" = .ok (some ⟨"file", "/r/a/b"⟩) ∧
    getExactMatch (fun _ => .error ()) (fun _ _ => .ok [⟨"file", "/r/a/b"⟩])
      none .posix "/a/b" = .error () :=
  ⟨by decide,
    ((C3_search_step_conditions (fun _ => .ok true) (fun _ _ => .ok [⟨"file", "/r/a/b"⟩])
        none .posix "a/b").1 (by decide)).trans (by decide),
    (C3_search_step_conditions (fun _ => .error ()) (fun _ _ => .ok [⟨"file", "/r/a/b"⟩])
        none .posix "/a/b").2.2 (by decide) rfl⟩

/-! ## Claim C8: idempotence of normalize -/

/-- A string left unchanged by each individual stage of the normalization
pipeline of lines 120-134. -/
def NormalFormText (os : HostOS) (folders : List String) (t : String) : Prop :=
  stripScheme t.data = t.data ∧
  nodeNormalize os t.data = t.data ∧
  stripLeadDots t.data = t.data ∧
  stripInSuffix t.data = t.data ∧
  stripFolderNames (sepChar os) (folders.map String.data) t.data = t.data

/-- C8 counterexample: normalization is not idempotent.  `a:in:in` normalizes
to `a:in`, and a second normalization strips a second `:in`, giving `a`. -/
theorem C8_counterexample :
    normalizeText .posix [] "a:in:in" = "a:in" ∧
    normalizeText .posix [] (normalizeText .posix [] "a:in:in") = "a" ∧
    normalizeText .posix [] (normalizeText .posix [] "a:in:in") ≠
      normalizeText .posix [] "a:in:in" :=
  ⟨by decide, by decide, by decide⟩

/-- C8 amended: inputs in normal form — left unchanged by each individual
normalization stage — are fixed points of `normalize`; `normalize` is
idempotent exactly on inputs whose normalized form has that property, and not
in general. -/
theorem C8_normal_form_fixed (os : HostOS) (folders : List String) (t : String)
    (h : NormalFormText os folders t) : normalizeText os folders t = t := by
  obtain ⟨h1, h2, h3, h4, h5⟩ := h
  unfold normalizeText
  rw [h1, h2, h3, h4, h5]

/-- Concrete instance of the amended C8. -/
theorem C8_normal_form_fixed_witness :
    NormalFormText .posix ["proj"] "src/app.ts" ∧
    normalizeText .posix ["proj"] "src/app.ts" = "src/app.ts" :=
  have h : NormalFormText .posix ["proj"] "src/app.ts" :=
    ⟨by decide, by decide, by decide, by decide, by decide⟩
  ⟨h, C8_normal_form_fixed .posix ["proj"] "src/app.ts" h⟩

/-! ## Claim C9: selection column 0, or no selection at all -/

/-- C9: with an exact match in hand, a matched link ending in `:line` with no
column yields a selection whose start column is `0` (not 1); a matched link
with no trailing match at all yields no selection. -/
theorem C9_selection_shape (os : HostOS) (folders : List String)
    (caps : SearchOpenerCaps) (linkText : String) (y : Nat) (r : Resource)
    (hexact : getExactMatch caps.stat caps.search caps.remoteAuthority os
      (stripTrailingLineColS (matchLinkOf os folders caps linkText y)) = .ok (some r)) :
    (∀ d : List Char,
      selMatch (matchLinkOf os folders caps linkText y).data = some (some d, none) →
      caps.openEditor r (some (digitsToNat d, 0)) = .ok () →
      openSearchLink os folders caps linkText y = .opened r (some (digitsToNat d, 0))) ∧
    (selMatch (matchLinkOf os folders caps linkText y).data = none →
      caps.openEditor r none = .ok () →
      openSearchLink os folders caps linkText y = .opened r none) := by
  constructor
  · intro d hsel hed
    have hsel2 : selectionOf (matchLinkOf os folders caps linkText y) =
        some (digitsToNat d, 0) := by
      unfold selectionOf
      rw [hsel]
    simp only [openSearchLink, hexact, hsel2, hed]
  · intro hsel hed
    have hsel2 : selectionOf (matchLinkOf os folders caps linkText y) = none := by
      unfold selectionOf
      rw [hsel]
    simp only [openSearchLink, hexact, hsel2, hed]

/-- Concrete instances of C9: `/x/a.ts:42` opens with selection `(42, 0)`;
`/x/b.rs` opens with no selection. -/
theorem C9_selection_shape_witness :
    openSearchLink .posix []
      { stat := fun _ => .ok true, search := fun _ _ => .ok [],
        openEditor := fun _ _ => .ok (), remoteAuthority := none,
        commandDetection := none } "/x/a.ts:42" 0 =
      .opened ⟨"file", "/x/a.ts"⟩ (some (42, 0)) ∧
    openSearchLink .posix []
      { stat := fun _ => .ok true, search := fun _ _ => .ok [],
        openEditor := fun _ _ => .ok (), remoteAuthority := none,
        commandDetection := none } "/x/b.rs" 0 =
      .opened ⟨"file", "/x/b.rs"⟩ none :=
  ⟨((C9_selection_shape .posix []
      { stat := fun _ => .ok true, search := fun _ _ => .ok [],
        openEditor := fun _ _ => .ok (), remoteAuthority := none,
        commandDetection := none } "/x/a.ts:42" 0 ⟨"file", "/x/a.ts"⟩ (by decide)).1
      ['4', '2'] (by decide) rfl).trans (by decide),
    (C9_selection_shape .posix []
      { stat := fun _ => .ok true, search := fun _ _ => .ok [],
        openEditor := fun _ _ => .ok (), remoteAuthority := none,
        commandDetection := none } "/x/b.rs" 0 ⟨"file", "/x/b.rs"⟩ (by decide)).2
      (by decide) rfl⟩

/-! ## Claim C5: line/column extraction -/

/-- A digit run stops exactly at the `:` that follows it. -/
theorem takeWhile_digits_colon (d r : List Char) (hd : d.all Char.isDigit = true) :
    (d ++ ':' :: r).takeWhile Char.isDigit = d := by
  induction d with
  | nil => exact rfl
  | cons c cs ih =>
    rw [List.all_cons, Bool.and_eq_true] at hd
    rw [List.cons_append, List.takeWhile_cons, if_pos hd.1, ih hd.2]

/-- `splitTrailingNum` on a reversed fragment ending in `:` + digits. -/
theorem splitTrailingNum_eval (d r : List Char) (hne : d ≠ [])
    (hd : d.all Char.isDigit = true) :
    splitTrailingNum (d ++ ':' :: r) = some (d, r) := by
  dsimp only [splitTrailingNum]
  rw [takeWhile_digits_colon d r hd, List.isEmpty_eq_false.mpr hne, List.drop_left]
  exact rfl

/-- `pathAndSuffix` on `P:L` with `L` a digit run and `P` carrying no further
trailing colon-digit group. -/
theorem pathAndSuffix_single (P ds : List Char) (hne : ds ≠ [])
    (hd : ds.all Char.isDigit = true) (hP : splitTrailingNum P.reverse = none) :
    pathAndSuffix (P ++ ':' :: ds) = (P, some (ds, none)) := by
  have hrev : (P ++ ':' :: ds).reverse = ds.reverse ++ ':' :: P.reverse := by
    simp
  dsimp only [pathAndSuffix]
  rw [hrev, splitTrailingNum_eval ds.reverse P.reverse
    (by rw [Ne, List.reverse_eq_nil_iff]; exact hne)
    (by rw [List.all_reverse]; exact hd)]
  dsimp only []
  rw [hP]
  dsimp only []
  rw [List.reverse_reverse, List.reverse_reverse]

/-- `pathAndSuffix` on `P:L:C` with both suffix groups digit runs. -/
theorem pathAndSuffix_double (P dl dc : List Char)
    (hnel : dl ≠ []) (hdl : dl.all Char.isDigit = true)
    (hnec : dc ≠ []) (hdc : dc.all Char.isDigit = true) :
    pathAndSuffix ((P ++ ':' :: dl) ++ ':' :: dc) = (P, some (dl, some dc)) := by
  have hrev : ((P ++ ':' :: dl) ++ ':' :: dc).reverse =
      dc.reverse ++ ':' :: (dl.reverse ++ ':' :: P.reverse) := by
    simp
  dsimp only [pathAndSuffix]
  rw [hrev, splitTrailingNum_eval dc.reverse (dl.reverse ++ ':' :: P.reverse)
    (by rw [Ne, List.reverse_eq_nil_iff]; exact hnec)
    (by rw [List.all_reverse]; exact hdc)]
  dsimp only []
  rw [splitTrailingNum_eval dl.reverse P.reverse
    (by rw [Ne, List.reverse_eq_nil_iff]; exact hnel)
    (by rw [List.all_reverse]; exact hdl)]
  dsimp only []
  rw [List.reverse_reverse, List.reverse_reverse, List.reverse_reverse]

/-- The modelled match on `P:L`: only the last alternative's line capture is
set. -/
theorem localLinkMatch_eval_single (os : HostOS) (P ds : List Char) (hPne : P ≠ [])
    (hne : ds ≠ []) (hd : ds.all Char.isDigit = true)
    (hP : splitTrailingNum P.reverse = none) :
    localLinkMatch os (String.mk (P ++ ':' :: ds)) =
      some (List.replicate (lineAndColumnMatchIndex os +
        lineAndColumnClauseGroupCount * (lineAndColumnClauseCount - 1)) none ++
        [some (String.mk ds), none, none]) := by
  dsimp only [localLinkMatch]
  rw [pathAndSuffix_single P ds hne hd hP]
  dsimp only []
  rw [List.isEmpty_eq_false.mpr hPne]
  exact rfl

/-- The modelled match on `P:L:C`: line and column captures of the last
alternative are set. -/
theorem localLinkMatch_eval_double (os : HostOS) (P dl dc : List Char) (hPne : P ≠ [])
    (hnel : dl ≠ []) (hdl : dl.all Char.isDigit = true)
    (hnec : dc ≠ []) (hdc : dc.all Char.isDigit = true) :
    localLinkMatch os (String.mk ((P ++ ':' :: dl) ++ ':' :: dc)) =
      some (List.replicate (lineAndColumnMatchIndex os +
        lineAndColumnClauseGroupCount * (lineAndColumnClauseCount - 1)) none ++
        [some (String.mk dl), none, some (String.mk dc)]) := by
  dsimp only [localLinkMatch]
  rw [pathAndSuffix_double P dl dc hnel hdl hnec hdc]
  dsimp only []
  rw [List.isEmpty_eq_false.mpr hPne]
  exact rfl

/-- `find?` over the six alternative indices when only the last line capture
is truthy. -/
theorem find?_range6_last (p : Nat → Bool) (h0 : p 0 = false) (h1 : p 1 = false)
    (h2 : p 2 = false) (h3 : p 3 = false) (h4 : p 4 = false) (h5 : p 5 = true) :
    (List.range 6).find? p = some 5 := by
  rw [show List.range 6 = [0, 1, 2, 3, 4, 5] from by decide,
    List.find?_cons_of_neg _ (by simp [h0]), List.find?_cons_of_neg _ (by simp [h1]),
    List.find?_cons_of_neg _ (by simp [h2]), List.find?_cons_of_neg _ (by simp [h3]),
    List.find?_cons_of_neg _ (by simp [h4]), List.find?_cons_of_pos _ h5]

/-- Evaluation of the source's extraction loop on a capture array holding only
the last alternative's line capture (and possibly its column capture). -/
theorem extract_eval_padded (os : HostOS) (link : String) (s : String)
    (colCap : Option String)
    (hm : localLinkMatch os link =
      some (List.replicate (lineAndColumnMatchIndex os +
        lineAndColumnClauseGroupCount * (lineAndColumnClauseCount - 1)) none ++
        [some s, none, colCap]))
    (hs : s.data ≠ []) :
    extractLineColumnInfo os link =
      ⟨digitsToNat s.data,
        if truthyCapture colCap then digitsToNat ((colCap.getD "").data) else 1⟩ := by
  have htrue : truthyCapture (some s) = true := by
    dsimp only [truthyCapture]
    rw [List.isEmpty_eq_false.mpr hs]
    rfl
  dsimp only [extractLineColumnInfo]
  rw [hm]
  cases os with
  | posix =>
    dsimp only [lineAndColumnMatchIndex, lineAndColumnClauseGroupCount,
      lineAndColumnClauseCount]
    rw [find?_range6_last _ (by exact rfl) (by exact rfl) (by exact rfl) (by exact rfl)
      (by exact rfl) (by exact htrue)]
    exact rfl
  | windows =>
    dsimp only [lineAndColumnMatchIndex, lineAndColumnClauseGroupCount,
      lineAndColumnClauseCount]
    rw [find?_range6_last _ (by exact rfl) (by exact rfl) (by exact rfl) (by exact rfl)
      (by exact rfl) (by exact htrue)]
    exact rfl

/-- The three facts carried by a successful `parseDigits`. -/
theorem parseDigits_spec (l : List Char) (L : Nat) (h : parseDigits l = some L) :
    l ≠ [] ∧ l.all Char.isDigit = true ∧ digitsToNat l = L := by
  dsimp only [parseDigits] at h
  by_cases hc : (!l.isEmpty && l.all Char.isDigit) = true
  · rw [if_pos hc] at h
    rw [Bool.and_eq_true, Bool.not_eq_true'] at hc
    exact ⟨List.isEmpty_eq_false.mp hc.1, hc.2, Option.some.inj h⟩
  · rw [if_neg hc] at h
    cases h

/-- Extraction on a fragment with no trailing colon-digit group gives the
default. -/
theorem extract_no_suffix (os : HostOS) (s : String)
    (hsplit : splitTrailingNum s.data.reverse = none) :
    extractLineColumnInfo os s = ⟨1, 1⟩ := by
  have hps : pathAndSuffix s.data = (s.data, none) := by
    dsimp only [pathAndSuffix]
    rw [hsplit]
  dsimp only [extractLineColumnInfo, localLinkMatch]
  rw [hps]
  dsimp only []
  by_cases he : s.data.isEmpty = true
  · rw [if_pos he]
  · rw [if_neg he]
    cases os
    · exact rfl
    · exact rfl

/-- C5: `extract` returns `{1,1}` on fragments with no trailing line/column
suffix; `{L,1}` on `P:L` when `P` itself carries no further colon-digit group;
and `{L,C}` on `P:L:C` — in each case via the first grammar alternative whose
line capture is non-empty, as the source's loop takes it. -/
theorem C5_extract_line_column (os : HostOS) :
    (∀ s : String, splitTrailingNum s.data.reverse = none →
      extractLineColumnInfo os s = ⟨1, 1⟩) ∧
    (∀ (P ds : String) (L : Nat), P.data ≠ [] → parseDigits ds.data = some L →
      splitTrailingNum P.data.reverse = none →
      extractLineColumnInfo os (P ++ ":" ++ ds) = ⟨L, 1⟩) ∧
    (∀ (P dl dc : String) (L C : Nat), P.data ≠ [] → parseDigits dl.data = some L →
      parseDigits dc.data = some C →
      extractLineColumnInfo os (P ++ ":" ++ dl ++ ":" ++ dc) = ⟨L, C⟩) := by
  refine ⟨fun s hsplit => extract_no_suffix os s hsplit, ?_, ?_⟩
  · intro P ds L hPne hds hP
    obtain ⟨hne, hdig, hval⟩ := parseDigits_spec ds.data L hds
    have hdata : (P ++ ":" ++ ds).data = P.data ++ ':' :: ds.data := by
      rw [String.data_append, String.data_append,
        show (":" : String).data = [':'] from rfl, List.append_assoc]
      rfl
    have harg : P ++ ":" ++ ds = String.mk (P.data ++ ':' :: ds.data) := by
      rw [← hdata]
    rw [harg, extract_eval_padded os (String.mk (P.data ++ ':' :: ds.data))
      (String.mk ds.data) none
      (localLinkMatch_eval_single os P.data ds.data hPne hne hdig hP) (by exact hne)]
    show LineColumnInfo.mk (digitsToNat ds.data) 1 = LineColumnInfo.mk L 1
    rw [hval]
  · intro P dl dc L C hPne hdl hdc
    obtain ⟨hnel, hdigl, hvall⟩ := parseDigits_spec dl.data L hdl
    obtain ⟨hnec, hdigc, hvalc⟩ := parseDigits_spec dc.data C hdc
    have hdata : (P ++ ":" ++ dl ++ ":" ++ dc).data =
        (P.data ++ ':' :: dl.data) ++ ':' :: dc.data := by
      simp [String.data_append, show (":" : String).data = [':'] from rfl]
    have harg : P ++ ":" ++ dl ++ ":" ++ dc =
        String.mk ((P.data ++ ':' :: dl.data) ++ ':' :: dc.data) := by
      rw [← hdata]
    rw [harg, extract_eval_padded os
      (String.mk ((P.data ++ ':' :: dl.data) ++ ':' :: dc.data))
      (String.mk dl.data) (some (String.mk dc.data))
      (localLinkMatch_eval_double os P.data dl.data dc.data hPne hnel hdigl hnec hdigc)
      (by exact hnel)]
    have hct : truthyCapture (some (String.mk dc.data)) = true := by
      show (!dc.data.isEmpty) = true
      rw [List.isEmpty_eq_false.mpr hnec]
      rfl
    rw [hct]
    show LineColumnInfo.mk (digitsToNat dl.data) (digitsToNat dc.data) =
      LineColumnInfo.mk L C
    rw [hvall, hvalc]

/-- Concrete instances of C5 on `src/app.ts` with and without suffixes. -/
theorem C5_extract_line_column_witness :
    extractLineColumnInfo .posix "src/app.ts" = ⟨1, 1⟩ ∧
    extractLineColumnInfo .posix ("src/app.ts" ++ ":" ++ "42") = ⟨42, 1⟩ ∧
    extractLineColumnInfo .posix ("src/app.ts" ++ ":" ++ "42" ++ ":" ++ "7") = ⟨42, 7⟩ :=
  ⟨(C5_extract_line_column .posix).1 "src/app.ts" (by decide),
    (C5_extract_line_column .posix).2.1 "src/app.ts" "42" 42 (by decide) (by decide)
      (by decide),
    (C5_extract_line_column .posix).2.2 "src/app.ts" "42" "7" 42 7 (by decide) (by decide)
      (by decide)⟩
